import Mathlib

/-!
Verification of the whisper-transcription cloud worker
(`src/workers/cloud/modal_worker.py`).

The development shallowly embeds the worker's core logic:

* `format_timestamp_srt` — the SRT/VTT timestamp formatter; Python floats are
  modelled as exact rationals (`ℚ`), `int(...)`, `//` and `%` by their Python
  semantics on rationals.
* `format_output` — the output formatter (json / srt / vtt / txt fallback),
  with `json.dumps(result, indent=2, ensure_ascii=False)` embedded by an exact
  pretty-printer over a JSON value type, together with a JSON parser used to
  state and prove the round-trip property.
* `transcribe` (embedded as `runTranscribe`) and `handle_error` — the job
  pipeline.  External effects (the audio GET, whisper inference, the S3
  upload, `os.unlink`, the callback POST) are modelled by an `Env` oracle that
  fixes each call's outcome, and a `World` state recording the file system,
  uploads, and callback posts.  Python exceptions are modelled by the
  `Eff`/`PyResult` types; the two `except` clauses of `transcribe` are
  translated branch by branch.
-/

namespace ModalWorker

/-! ### Python primitives on rationals and strings -/

/-- Python `a // m` on floats (floor division), at exact rational precision. -/
def pyFloorDiv (a m : ℚ) : ℚ := ((⌊a / m⌋ : ℤ) : ℚ)

/-- Python `a % m` on floats: `a - m * (a // m)`, at exact rational precision. -/
def pyMod (a m : ℚ) : ℚ := a - m * ((⌊a / m⌋ : ℤ) : ℚ)

/-- Python `int(x)` on a float: truncation toward zero. -/
def pyInt (q : ℚ) : ℤ := if 0 ≤ q then ⌊q⌋ else -⌊-q⌋

/-- Decimal digit character for `n % 10`. -/
def digCh (n : Nat) : Char := Char.ofNat (48 + n % 10)

/-- Decimal digit characters of `n`, most significant first (fuel-driven so the
recursion is structural; `fuel = n + 1` always suffices). -/
def natDigs : Nat → Nat → List Char
  | 0, _ => []
  | f + 1, n => if n < 10 then [digCh n] else natDigs f (n / 10) ++ [digCh (n % 10)]

/-- Decimal rendering of a natural number, as produced by Python `str`/format. -/
def natStr (n : Nat) : String := String.mk (natDigs (n + 1) n)

/-- Left-pad a string with `'0'` to width `w` (Python `{:0wd}` on the digits). -/
def padZ (w : Nat) (s : String) : String :=
  String.mk (List.replicate (w - s.length) '0') ++ s

/-- Python `f"{x:0wd}"`: zero-padded fixed-width decimal; a sign counts toward
the width and precedes the padding. -/
def pyPad (w : Nat) (x : ℤ) : String :=
  if x < 0 then "-" ++ padZ (w - 1) (natStr x.natAbs) else padZ w (natStr x.natAbs)

/-- Characters Python `str.strip()` removes. -/
def isPySpace (c : Char) : Bool :=
  c = ' ' || c = '\t' || c = '\n' || c = '\r' || c = '\x0b' || c = '\x0c'

/-- Python `s.strip()`: drop leading and trailing whitespace. -/
def pyStrip (s : String) : String :=
  String.mk (((s.data.dropWhile isPySpace).reverse.dropWhile isPySpace).reverse)

/-- Python `s.lower()` (character-wise lowercasing). -/
def pyLower (s : String) : String := String.mk (s.data.map Char.toLower)

/-! ### The timestamp formatter (`format_timestamp_srt`, lines 286-292) -/

/-- Embedding of `format_timestamp_srt`:
`hours = int(seconds // 3600)`, `minutes = int((seconds % 3600) // 60)`,
`secs = int(seconds % 60)`, `millis = int((seconds % 1) * 1000)`,
rendered as `f"{hours:02d}:{minutes:02d}:{secs:02d},{millis:03d}"`. -/
def format_timestamp_srt (seconds : ℚ) : String :=
  let hours := pyInt (pyFloorDiv seconds 3600)
  let minutes := pyInt (pyFloorDiv (pyMod seconds 3600) 60)
  let secs := pyInt (pyMod seconds 60)
  let millis := pyInt (pyMod seconds 1 * 1000)
  pyPad 2 hours ++ ":" ++ pyPad 2 minutes ++ ":" ++ pyPad 2 secs ++ "," ++ pyPad 3 millis

/-! ### The transcription result data model -/

/-- One whisper segment: `{"start": float, "end": float, "text": str}`.
The `end` key is embedded as the field `stop` (`end` is a Lean keyword). -/
structure Segment where
  start : ℚ
  stop : ℚ
  text : String
deriving DecidableEq, Repr

/-- The whisper result dict as consumed by the worker: `result["text"]`,
`result["segments"]`, and the optional `"language"` key
(read with `result.get("language", "unknown")`). -/
structure TranscriptionResult where
  text : String
  segments : List Segment
  language : Option String
deriving DecidableEq, Repr

/-- Embedding of `result["segments"][-1]["end"] if result["segments"] else 0`. -/
def durationOf (r : TranscriptionResult) : ℚ :=
  match r.segments.getLast? with
  | some seg => seg.stop
  | none => 0

/-- Embedding of `result.get("language", "unknown")`. -/
def languageOf (r : TranscriptionResult) : String :=
  r.language.getD "unknown"

/-! ### JSON values and `json.dumps(..., indent=2, ensure_ascii=False)` -/

/-- A JSON value as the worker serializes it.  Numbers are carried as their
serialized decimal lexeme (Python floats are printed by `repr`; the pipeline
embeds each timestamp rational through `ratLex` below), which keeps the
serializer/parser round-trip exact without re-modelling float shortest-repr. -/
inductive JVal where
  | jstr (s : String)
  | jnum (lex : String)
  | jarr (elems : List JVal)
  | jobj (members : List (String × JVal))

/-- Hex digit character (lowercase), as Python `format(n, "04x")` uses. -/
def hexDig (n : Nat) : Char :=
  if n < 10 then Char.ofNat (48 + n) else Char.ofNat (87 + n)

/-- JSON-escape one character exactly as `json.dumps(..., ensure_ascii=False)`
does: escape `"` and `\`, short escapes for the five named control characters,
`\u00xx` for the other control characters, everything else verbatim. -/
def escChar (c : Char) : List Char :=
  if c = '"' then ['\\', '"']
  else if c = '\\' then ['\\', '\\']
  else if c = '\n' then ['\\', 'n']
  else if c = '\r' then ['\\', 'r']
  else if c = '\t' then ['\\', 't']
  else if c = '\x08' then ['\\', 'b']
  else if c = '\x0c' then ['\\', 'f']
  else if c.toNat < 32 then ['\\', 'u', '0', '0', hexDig (c.toNat / 16), hexDig (c.toNat % 16)]
  else [c]

/-- JSON-escape a character list. -/
def escL : List Char → List Char
  | [] => []
  | c :: cs => escChar c ++ escL cs

/-- A JSON string literal: quote, escaped body, quote. -/
def strLitL (s : String) : List Char := '"' :: (escL s.data ++ ['"'])

/-- `n` spaces, the `indent=2` padding. -/
def indL (n : Nat) : List Char := List.replicate n ' '

mutual

/-- Serialize a JSON value at indentation level `ind`, exactly as
`json.dumps(v, indent=2, ensure_ascii=False)` lays it out: empty containers
inline, non-empty containers one element per line, `": "` after keys, `","`
between elements followed by a newline. -/
def dumpL (ind : Nat) : JVal → List Char
  | .jstr s => strLitL s
  | .jnum lex => lex.data
  | .jarr [] => ['[', ']']
  | .jarr (v :: vs) =>
      '[' :: '\n' :: (dumpItemsL (ind + 2) v vs ++ '\n' :: (indL ind ++ [']']))
  | .jobj [] => ['\x7b', '\x7d']
  | .jobj ((k, v) :: kvs) =>
      '\x7b' :: '\n' :: (dumpMembersL (ind + 2) k v kvs ++ '\n' :: (indL ind ++ ['\x7d']))
termination_by v => sizeOf v
decreasing_by all_goals (simp_wf; try omega)

/-- The comma-and-newline separated element lines of a non-empty array. -/
def dumpItemsL (ind : Nat) (v : JVal) (vs : List JVal) : List Char :=
  match vs with
  | [] => indL ind ++ dumpL ind v
  | w :: ws => indL ind ++ (dumpL ind v ++ ',' :: '\n' :: dumpItemsL ind w ws)
termination_by 1 + sizeOf v + sizeOf vs
decreasing_by all_goals (simp_wf; try omega)

/-- The comma-and-newline separated member lines of a non-empty object. -/
def dumpMembersL (ind : Nat) (k : String) (v : JVal) (kvs : List (String × JVal)) : List Char :=
  match kvs with
  | [] => indL ind ++ (strLitL k ++ ':' :: ' ' :: dumpL ind v)
  | (k2, v2) :: rest =>
      indL ind ++ (strLitL k ++ ':' :: ' ' :: (dumpL ind v ++ ',' :: '\n' :: dumpMembersL ind k2 v2 rest))
termination_by 1 + sizeOf v + sizeOf kvs
decreasing_by all_goals (simp_wf; try omega)

end

/-- Embedding of `json.dumps(v, indent=2, ensure_ascii=False)`. -/
def json_dumps (v : JVal) : String := String.mk (dumpL 0 v)

/-- Count of factors `p` in `n` (fuel-driven; `fuel = n` suffices). -/
def pMult (p : Nat) : Nat → Nat → Nat
  | 0, _ => 0
  | f + 1, n => if 2 ≤ p ∧ n ≠ 0 ∧ n % p = 0 then pMult p f (n / p) + 1 else 0

/-- Decimal lexeme of a rational, as Python float `repr` prints it for every
value a float can take: floats are dyadic, so their denominator divides a power
of ten and the expansion below is exact and finite (`2.5 → "2.5"`,
`0 → "0.0"`).  Rationals outside that set cannot arise from a Python float; for
them the function falls back to a syntactically well-formed dummy lexeme so
that lexeme well-formedness holds unconditionally. -/
def ratLex (q : ℚ) : String :=
  let sgn := if q.num < 0 then "-" else ""
  let k2 := pMult 2 q.den q.den
  let k5 := pMult 5 q.den q.den
  let k := max k2 k5
  if q.den = 2 ^ k2 * 5 ^ k5 then
    if k = 0 then sgn ++ natStr q.num.natAbs ++ ".0"
    else
      let m := q.num.natAbs * (10 ^ k / q.den)
      sgn ++ natStr (m / 10 ^ k) ++ "." ++ padZ k (natStr (m % 10 ^ k))
  else sgn ++ natStr q.num.natAbs ++ ".0"

/-- The JSON object for one segment dict. -/
def segToJson (s : Segment) : JVal :=
  .jobj [("start", .jnum (ratLex s.start)), ("end", .jnum (ratLex s.stop)),
         ("text", .jstr s.text)]

/-- The JSON object for the whisper result dict (the `"language"` key is
present exactly when the dict has one). -/
def resultToJson (r : TranscriptionResult) : JVal :=
  .jobj ([("text", .jstr r.text), ("segments", .jarr (r.segments.map segToJson))] ++
    (match r.language with
     | some l => [("language", .jstr l)]
     | none => []))

/-! ### The output formatter (`format_output`, lines 250-283) -/

/-- Python `sep.join(items)`. -/
def pyJoin (sep : String) : List String → String
  | [] => ""
  | [x] => x
  | x :: y :: xs => x ++ sep ++ pyJoin sep (y :: xs)

/-- One SRT block per segment with its 1-based index, as built by the loop
`for i, segment in enumerate(result["segments"], 1)`. -/
def srtItems : Nat → List Segment → List String
  | _, [] => []
  | i, seg :: rest =>
      (natStr i ++ "\n" ++ format_timestamp_srt seg.start ++ " --> " ++
        format_timestamp_srt seg.stop ++ "\n" ++ pyStrip seg.text ++ "\n") :: srtItems (i + 1) rest

/-- One VTT block per segment (no index line). -/
def vttItems : List Segment → List String
  | [] => []
  | seg :: rest =>
      (format_timestamp_srt seg.start ++ " --> " ++ format_timestamp_srt seg.stop ++
        "\n" ++ pyStrip seg.text ++ "\n") :: vttItems rest

/-- Embedding of `format_output(result, format_type)`. -/
def format_output (result : TranscriptionResult) (format_type : String) : String :=
  if format_type = "json" then json_dumps (resultToJson result)
  else if format_type = "srt" then pyJoin "\n" (srtItems 1 result.segments)
  else if format_type = "vtt" then pyJoin "\n" ("WEBVTT\n" :: vttItems result.segments)
  else pyStrip result.text

/-! ### The job pipeline (`transcribe`, lines 52-211, and `handle_error`,
lines 214-247)

External calls are modelled by an oracle `Env` fixing each call's outcome and
a `World` recording the observable effects.  A Python exception raised by a
step is one of two kinds, matching the two `except` clauses of `transcribe`:
`requests.RequestException` (caught first) and any other `Exception`. -/

/-- Outcome of one fallible external call: a value, or a raised
`requests.RequestException`, or any other raised `Exception`. -/
inductive Eff (α : Type) where
  | ok (a : α)
  | reqExc (msg : String)
  | exc (msg : String)
deriving DecidableEq, Repr

/-- The job payload (`job_data`), with the fields the worker reads.
`callbackUrl` is read with `.get`, hence optional. -/
structure JobData where
  transcriptionId : String
  userId : String
  s3AudioUrl : String
  model : String
  format : String
  callbackUrl : Option String
deriving DecidableEq, Repr

/-- Oracle for every external interaction of one `transcribe` invocation. -/
structure Env where
  /-- `os.environ` as a finite map. -/
  environ : List (String × String)
  /-- The path `tempfile.NamedTemporaryFile(suffix=".audio", delete=False)` picks. -/
  tmpName : String
  /-- Outcome of `requests.get(s3_audio_url, timeout=300)` + `raise_for_status()`. -/
  download : Eff Unit
  /-- Outcome of `whisper.load_model` + `model.transcribe(...)`. -/
  transcription : Eff TranscriptionResult
  /-- The measured `round(transcribe_time, 2)` (wall clock, opaque here). -/
  processingTime : ℚ
  /-- Outcome of `s3.put_object(...)`. -/
  upload : Eff Unit
  /-- Outcome of `os.unlink(audio_path)` on the success path (not wrapped in
  `try`, so a raise here falls through to the `except` clauses). -/
  unlinkMain : Eff Unit
  /-- Whether the success-path callback POST delivers (its exception is
  caught and only logged). -/
  callbackMainOk : Bool
  /-- Whether the `handle_error` unlink succeeds (its exception is swallowed,
  leaving the file in place). -/
  unlinkErrOk : Bool
  /-- Whether the `handle_error` callback POST delivers (exception swallowed). -/
  callbackErrOk : Bool
deriving DecidableEq, Repr

/-- One `s3.put_object` call's observable arguments. -/
structure UploadRec where
  key : String
  contentType : String
  body : String
  metaTranscriptionId : String
  metaUserId : String
  metaModel : String
  metaDuration : ℚ
deriving DecidableEq, Repr

/-- One attempted callback POST: target URL, the `transcriptionId` and
`status` fields of the JSON payload, and whether delivery succeeded. -/
structure PostRec where
  url : String
  transcriptionId : String
  status : String
  delivered : Bool
deriving DecidableEq, Repr

/-- Observable state: files on disk, uploads performed, callback attempts. -/
structure World where
  files : List String
  uploads : List UploadRec
  posts : List PostRec
deriving DecidableEq, Repr

/-- The pipeline's terminal value: `{"success": True, ...}` or
`{"success": False, "error": ...}`. -/
inductive JobResult where
  | success (s3ResultUrl : String) (durationSeconds : ℚ) (processingTime : ℚ)
      (language : String)
  | failure (error : String)
deriving DecidableEq, Repr

/-- Lookup in the modelled `os.environ`. -/
def envGet : List (String × String) → String → Option String
  | [], _ => none
  | (k, v) :: rest, key => if k = key then some v else envGet rest key

/-- Python truthiness of an optional string (`if callback_url:`,
`if audio_path ...`): present and non-empty. -/
def optTruthy : Option String → Bool
  | some s => s ≠ ""
  | none => false

/-- Embedding of `handle_error(transcription_id, error_msg, callback_url,
audio_path)`: best-effort unlink when `audio_path` is truthy and the file
exists, best-effort `FAILED` callback, and the failure dict. -/
def handle_error (transcription_id error_msg : String) (callback_url : Option String)
    (audio_path : Option String) (env : Env) (w : World) : JobResult × World :=
  let w1 :=
    if optTruthy audio_path && w.files.contains (audio_path.getD "") then
      if env.unlinkErrOk then { w with files := w.files.erase (audio_path.getD "") } else w
    else w
  let w2 :=
    match callback_url with
    | some u =>
        if u ≠ "" then
          { w1 with posts := w1.posts ++ [⟨u, transcription_id, "FAILED", env.callbackErrOk⟩] }
        else w1
    | none => w1
  (JobResult.failure error_msg, w2)

/-- Embedding of `content_types.get(output_format, "text/plain")` over the
literal dict at lines 150-155. -/
def contentTypesGet (fmt : String) : String :=
  if fmt = "json" then "application/json"
  else if fmt = "srt" then "text/srt"
  else if fmt = "vtt" then "text/vtt"
  else if fmt = "txt" then "text/plain"
  else "text/plain"

/-- Success-path tail of `transcribe` (steps 6½-7): build `result_data`,
attempt the `COMPLETED` callback when a URL is present (outcome logged only),
and return. -/
def finishSuccess (transcription_id : String) (callback_url : Option String)
    (result_data : JobResult) (env : Env) (w : World) : JobResult × World :=
  let w2 :=
    match callback_url with
    | some u =>
        if u ≠ "" then
          { w with posts := w.posts ++ [⟨u, transcription_id, "COMPLETED", env.callbackMainOk⟩] }
        else w
    | none => w
  (result_data, w2)

/-- Embedding of the `transcribe` function.  A returned `Except.error` is an
exception escaping to the invoker; this can happen only before the `try`
block, at the `os.environ["S3_ACCESS_KEY"]`/`["S3_SECRET_KEY"]` reads of the
S3 client construction (lines 94-101).  Everything inside `try` lands in one
of the two `except` clauses: `requests.RequestException` yields the
`"Failed to download audio: ..."` message, any other `Exception` the
`"Transcription failed: ..."` message, each via `handle_error`.

The temporary file is created by `tempfile.NamedTemporaryFile` before the GET
runs, but `audio_path` is assigned only after `response.raise_for_status()`
and the write succeed — on a download failure `handle_error` therefore
receives `audio_path=None`. -/
def runTranscribe (env : Env) (job_data : JobData) : Except String (JobResult × World) :=
  let transcription_id := job_data.transcriptionId
  let model_name := pyLower job_data.model
  let output_format := pyLower job_data.format
  let user_id := job_data.userId
  let callback_url := job_data.callbackUrl
  match envGet env.environ "S3_ACCESS_KEY" with
  | none => Except.error "KeyError: 'S3_ACCESS_KEY'"
  | some _ =>
  match envGet env.environ "S3_SECRET_KEY" with
  | none => Except.error "KeyError: 'S3_SECRET_KEY'"
  | some _ =>
  Except.ok <|
  -- Step 1: the temp file exists from here on; `audio_path` is still None.
  let w0 : World := { files := [env.tmpName], uploads := [], posts := [] }
  match env.download with
  | .reqExc m =>
      handle_error transcription_id ("Failed to download audio: " ++ m) callback_url none env w0
  | .exc m =>
      handle_error transcription_id ("Transcription failed: " ++ m) callback_url none env w0
  | .ok _ =>
  let audio_path : Option String := some env.tmpName
  -- Steps 2-3: model load + transcription.
  match env.transcription with
  | .reqExc m =>
      handle_error transcription_id ("Failed to download audio: " ++ m) callback_url audio_path env w0
  | .exc m =>
      handle_error transcription_id ("Transcription failed: " ++ m) callback_url audio_path env w0
  | .ok result =>
  let duration_seconds := durationOf result
  -- Step 4: format.
  let output_data := format_output result output_format
  -- Step 5: upload (the `os.environ["S3_BUCKET"]` read is inside `try`).
  let result_key := "results/" ++ user_id ++ "/" ++ transcription_id ++ "." ++ output_format
  match envGet env.environ "S3_BUCKET" with
  | none =>
      handle_error transcription_id ("Transcription failed: " ++ "'S3_BUCKET'") callback_url audio_path env w0
  | some bucket =>
  match env.upload with
  | .reqExc m =>
      handle_error transcription_id ("Failed to download audio: " ++ m) callback_url audio_path env w0
  | .exc m =>
      handle_error transcription_id ("Transcription failed: " ++ m) callback_url audio_path env w0
  | .ok _ =>
  let w1 : World :=
    { w0 with uploads := w0.uploads ++
        [⟨result_key, contentTypesGet output_format, output_data,
          transcription_id, user_id, model_name, duration_seconds⟩] }
  let s3_result_url := "s3://" ++ bucket ++ "/" ++ result_key
  let result_data := JobResult.success s3_result_url duration_seconds env.processingTime
    (languageOf result)
  -- Step 6: unconditional cleanup, outside any `try`.
  match optTruthy audio_path && w1.files.contains env.tmpName with
  | true =>
    (match env.unlinkMain with
     | .reqExc m =>
         handle_error transcription_id ("Failed to download audio: " ++ m) callback_url audio_path env w1
     | .exc m =>
         handle_error transcription_id ("Transcription failed: " ++ m) callback_url audio_path env w1
     | .ok _ =>
         finishSuccess transcription_id callback_url result_data env
           { w1 with files := w1.files.erase env.tmpName })
  | false =>
    finishSuccess transcription_id callback_url result_data env w1

/-! ### A JSON parser, used to state the round-trip property of the `json`
output format.  Recursive descent over the character list; the recursion is
structural on a fuel counter, and `parseJson` supplies `length + 1` fuel,
which the round-trip proof shows is enough for every serializer output. -/

/-- JSON insignificant whitespace. -/
def isWsCh (c : Char) : Bool := c = ' ' || c = '\t' || c = '\n' || c = '\r'

/-- ASCII decimal digit. -/
def isDigitCh (c : Char) : Bool := '0' ≤ c && c ≤ '9'

/-- Characters that may continue a number token. -/
def isNumCh (c : Char) : Bool :=
  isDigitCh c || c = '-' || c = '+' || c = '.' || c = 'e' || c = 'E'

/-- Drop leading JSON whitespace. -/
def skipWs : List Char → List Char
  | c :: cs => if isWsCh c then skipWs cs else c :: cs
  | [] => []

/-- Maximal munch of a number token. -/
def takeNum : List Char → List Char × List Char
  | [] => ([], [])
  | c :: cs =>
      if isNumCh c then
        let p := takeNum cs
        (c :: p.1, p.2)
      else ([], c :: cs)

/-- Numeric value of a hex digit character, if it is one. -/
def hexVal (c : Char) : Option Nat :=
  if '0' ≤ c && c ≤ '9' then some (c.toNat - 48)
  else if 'a' ≤ c && c ≤ 'f' then some (c.toNat - 87)
  else if 'A' ≤ c && c ≤ 'F' then some (c.toNat - 55)
  else none

/-- Inverse of a short escape character. -/
def unescCh (c : Char) : Option Char :=
  if c = '"' then some '"'
  else if c = '\\' then some '\\'
  else if c = '/' then some '/'
  else if c = 'n' then some '\n'
  else if c = 'r' then some '\r'
  else if c = 't' then some '\t'
  else if c = 'b' then some '\x08'
  else if c = 'f' then some '\x0c'
  else none

/-- Parse a string body after its opening quote, unescaping as it goes;
returns the decoded characters and the remainder past the closing quote. -/
def parseStrBody : List Char → Option (List Char × List Char)
  | [] => none
  | c :: cs =>
      if c = '"' then some ([], cs)
      else if c = '\\' then
        match cs with
        | [] => none
        | e :: cs2 =>
            if e = 'u' then
              match cs2 with
              | h1 :: h2 :: h3 :: h4 :: cs3 =>
                  match hexVal h1, hexVal h2, hexVal h3, hexVal h4 with
                  | some a, some b, some c3, some d =>
                      (match parseStrBody cs3 with
                       | some (s, rest) =>
                           some (Char.ofNat (((a * 16 + b) * 16 + c3) * 16 + d) :: s, rest)
                       | none => none)
                  | _, _, _, _ => none
              | _ => none
            else
              match unescCh e with
              | some u =>
                  (match parseStrBody cs2 with
                   | some (s, rest) => some (u :: s, rest)
                   | none => none)
              | none => none
      else
        match parseStrBody cs with
        | some (s, rest) => some (c :: s, rest)
        | none => none
termination_by l => l.length
decreasing_by all_goals (simp_wf; try omega)

mutual

/-- Parse one JSON value (string, number, array, or object). -/
def parseVal : Nat → List Char → Option (JVal × List Char)
  | 0, _ => none
  | f + 1, l =>
      match skipWs l with
      | [] => none
      | c :: cs =>
          if c = '"' then
            match parseStrBody cs with
            | some (s, rest) => some (JVal.jstr (String.mk s), rest)
            | none => none
          else if c = '[' then
            match skipWs cs with
            | [] => none
            | c2 :: cs2 =>
                if c2 = ']' then some (JVal.jarr [], cs2)
                else
                  match parseItems f cs with
                  | some (vs, rest) => some (JVal.jarr vs, rest)
                  | none => none
          else if c = '\x7b' then
            match skipWs cs with
            | [] => none
            | c2 :: cs2 =>
                if c2 = '\x7d' then some (JVal.jobj [], cs2)
                else
                  match parseMembers f cs with
                  | some (kvs, rest) => some (JVal.jobj kvs, rest)
                  | none => none
          else if isDigitCh c || c = '-' then
            let p := takeNum (c :: cs)
            some (JVal.jnum (String.mk p.1), p.2)
          else none

/-- Parse the elements of a non-empty array, through the closing `]`. -/
def parseItems : Nat → List Char → Option (List JVal × List Char)
  | 0, _ => none
  | f + 1, l =>
      match parseVal f l with
      | some (v, rest) =>
          (match skipWs rest with
           | [] => none
           | c :: rest2 =>
               if c = ',' then
                 match parseItems f rest2 with
                 | some (vs, rest3) => some (v :: vs, rest3)
                 | none => none
               else if c = ']' then some ([v], rest2)
               else none)
      | none => none

/-- Parse the members of a non-empty object, through the closing brace. -/
def parseMembers : Nat → List Char → Option (List (String × JVal) × List Char)
  | 0, _ => none
  | f + 1, l =>
      match skipWs l with
      | [] => none
      | c0 :: cs =>
          if c0 = '"' then
            match parseStrBody cs with
            | some (k, rest) =>
                (match skipWs rest with
                 | [] => none
                 | c1 :: rest2 =>
                     if c1 = ':' then
                       match parseVal f rest2 with
                       | some (v, rest3) =>
                           (match skipWs rest3 with
                            | [] => none
                            | c2 :: rest4 =>
                                if c2 = ',' then
                                  match parseMembers f rest4 with
                                  | some (kvs, rest5) => some ((String.mk k, v) :: kvs, rest5)
                                  | none => none
                                else if c2 = '\x7d' then some ([(String.mk k, v)], rest4)
                                else none)
                       | none => none
                     else none)
            | none => none
          else none

end

/-- Parse a complete JSON document (no trailing garbage allowed). -/
def parseJson (s : String) : Option JVal :=
  match parseVal (s.data.length + 1) s.data with
  | some (v, rest) => if skipWs rest = [] then some v else none
  | none => none

/-- First value of a key in a parsed JSON object's member list
(`dict` lookup on the parse result). -/
def jLookup : List (String × JVal) → String → Option JVal
  | [], _ => none
  | (k, v) :: rest, key => if k = key then some v else jLookup rest key

/-! ### Specification-side reference definitions -/

/-- Timestamp text determined by the truncated total milliseconds `t`:
each component is obtained by integer division/remainder from `t`, i.e. by
truncation of the fractional input, never rounding (spec §4.1). -/
def specTruncTimestamp (t : Nat) : String :=
  pyPad 2 ((t / 3600000 : ℕ) : ℤ) ++ ":" ++ pyPad 2 ((t / 60000 % 60 : ℕ) : ℤ) ++ ":" ++
    pyPad 2 ((t / 1000 % 60 : ℕ) : ℤ) ++ "," ++ pyPad 3 ((t % 1000 : ℕ) : ℤ)

/-- Specification-side SRT blocks (spec §4.2): for each segment, 1-indexed
sequentially, an index line, a `start --> end` line from the timestamp
formatter, and the trimmed segment text; no separator inside a block. -/
def specSrtBlocks : Nat → List Segment → List String
  | _, [] => []
  | i, seg :: rest =>
      (natStr i ++ "\n" ++ format_timestamp_srt seg.start ++ " --> " ++
        format_timestamp_srt seg.stop ++ "\n" ++ pyStrip seg.text) :: specSrtBlocks (i + 1) rest

/-- Shared concrete result used by witness instantiations. -/
def sampleResult : TranscriptionResult :=
  ⟨"Hello world. This is a test.",
   [⟨0, 5 / 2, " Hello world."⟩, ⟨5 / 2, 5, " This is a test."⟩], some "en"⟩

/-- A fully healthy environment used as witness input. -/
def envOkW : Env :=
  { environ := [("S3_ACCESS_KEY", "AK"), ("S3_SECRET_KEY", "SK"), ("S3_BUCKET", "bkt")]
    tmpName := "/tmp/tmpa1.audio"
    download := Eff.ok ()
    transcription := Eff.ok sampleResult
    processingTime := 3
    upload := Eff.ok ()
    unlinkMain := Eff.ok ()
    callbackMainOk := true
    unlinkErrOk := true
    callbackErrOk := true }

/-- A job payload used as witness input. -/
def jobW : JobData :=
  ⟨"trans_1", "user_1", "https://bucket/audio.mp3", "BASE", "SRT", some "https://cb.example/hook"⟩

/-- Environment whose download GET raises. -/
def envDownFail : Env :=
  { envOkW with download := Eff.reqExc "connection refused" }

/-- Job with an unrecognized format value (`"XML"`, lowercased `"xml"`). -/
def jobXml : JobData :=
  ⟨"trans_1", "user_1", "https://bucket/audio.mp3", "BASE", "XML", some "https://cb.example/hook"⟩

/-- All characters of a valid number token. -/
def numTok (s : String) : Prop := ∀ c ∈ s.data, isNumCh c = true

/-- A list that cannot extend a number token: empty or headed by a
non-number character.  Every delimiter the serializer emits after a number
(`,`, `\n`, `]`, `\x7d`) qualifies. -/
def numHalt : List Char → Bool
  | [] => true
  | c :: _ => !isNumCh c

/-- A concrete result with non-ASCII text for exercising the JSON branch. -/
def c6Sample : TranscriptionResult :=
  ⟨"Héllo wörld 你好", [⟨0, 2, " a"⟩], some "en"⟩

/-! ### Claim C3: the timestamp formatter truncates -/

theorem pyInt_of_nonneg (q : ℚ) (h : 0 ≤ q) : pyInt q = ⌊q⌋ := by
  simp [pyInt, h]

theorem pyInt_intCast (k : ℤ) : pyInt ((k : ℤ) : ℚ) = k := by
  unfold pyInt
  by_cases hk : (0 : ℚ) ≤ (k : ℚ)
  · rw [if_pos hk, Int.floor_intCast]
  · rw [if_neg hk, ← Int.cast_neg, Int.floor_intCast, neg_neg]

theorem pyMod_nonneg (a m : ℚ) (hm : 0 < m) : 0 ≤ pyMod a m := by
  unfold pyMod
  have h1 : ((⌊a / m⌋ : ℤ) : ℚ) ≤ a / m := Int.floor_le _
  have h2 : m * ((⌊a / m⌋ : ℤ) : ℚ) ≤ m * (a / m) := by
    exact mul_le_mul_of_nonneg_left h1 (le_of_lt hm)
  have h3 : m * (a / m) = a := by field_simp
  linarith

/-- For nonnegative `s` and positive `d`, the Python floor division
`int(s // d)` equals Nat division of the truncated milliseconds by `1000 * d`. -/
theorem floor_div_millis (s : ℚ) (h : 0 ≤ s) (d : ℕ) (hd : 0 < d) :
    ⌊s / (d : ℚ)⌋ = ((⌊1000 * s⌋₊ / (1000 * d) : ℕ) : ℤ) := by
  have hds : (0 : ℚ) ≤ s / (d : ℚ) := by positivity
  rw [← Int.natCast_floor_eq_floor hds, Nat.floor_div_nat]
  have hs : s = 1000 * s / 1000 := by norm_num
  have h2 : ⌊s⌋₊ = ⌊1000 * s⌋₊ / 1000 := by
    conv_lhs => rw [hs]
    exact_mod_cast Nat.floor_div_nat (1000 * s) 1000
  rw [h2, Nat.div_div_eq_div_mul]

/-- Python `int(s)` for nonnegative `s`, via truncated milliseconds. -/
theorem floor_millis (s : ℚ) (h : 0 ≤ s) : ⌊s⌋ = ((⌊1000 * s⌋₊ / 1000 : ℕ) : ℤ) := by
  have h0 := floor_div_millis s h 1 (by norm_num)
  norm_num at h0
  exact h0

/-- The formatter's output is determined by the truncated total
milliseconds, each component read off by integer division and remainder. -/
theorem format_timestamp_eq_spec (s : ℚ) (h : 0 ≤ s) :
    format_timestamp_srt s = specTruncTimestamp ⌊1000 * s⌋₊ := by
  unfold format_timestamp_srt specTruncTimestamp
  have hq : (0 : ℚ) ≤ 1000 * s := by positivity
  have hn : ⌊1000 * s⌋ = ((⌊1000 * s⌋₊ : ℕ) : ℤ) := (Int.natCast_floor_eq_floor hq).symm
  -- hours
  have hh : pyInt (pyFloorDiv s 3600) = ((⌊1000 * s⌋₊ / 3600000 : ℕ) : ℤ) := by
    rw [pyFloorDiv, pyInt_intCast]
    have := floor_div_millis s h 3600 (by norm_num)
    norm_num at this ⊢
    exact this
  -- seconds
  have hfs : ⌊s⌋ = ((⌊1000 * s⌋₊ / 1000 : ℕ) : ℤ) := floor_millis s h
  have hs60 : ⌊s / (60 : ℚ)⌋ = ((⌊1000 * s⌋₊ / 60000 : ℕ) : ℤ) := by
    have := floor_div_millis s h 60 (by norm_num)
    norm_num at this ⊢
    exact this
  have hsec : pyInt (pyMod s 60) = ((⌊1000 * s⌋₊ / 1000 % 60 : ℕ) : ℤ) := by
    rw [pyInt_of_nonneg _ (pyMod_nonneg s 60 (by norm_num))]
    unfold pyMod
    have hrw : s - 60 * ((⌊s / (60 : ℚ)⌋ : ℤ) : ℚ) = s - ((60 * ⌊s / (60 : ℚ)⌋ : ℤ) : ℚ) := by
      push_cast; ring
    rw [hrw, Int.floor_sub_int, hfs, hs60]
    omega
  -- minutes
  have hmin : pyInt (pyFloorDiv (pyMod s 3600) 60) = ((⌊1000 * s⌋₊ / 60000 % 60 : ℕ) : ℤ) := by
    rw [pyFloorDiv, pyInt_intCast]
    unfold pyMod
    have h36 : ⌊s / (3600 : ℚ)⌋ = ((⌊1000 * s⌋₊ / 3600000 : ℕ) : ℤ) := by
      have := floor_div_millis s h 3600 (by norm_num)
      norm_num at this ⊢
      exact this
    have hrw : (s - 3600 * ((⌊s / (3600 : ℚ)⌋ : ℤ) : ℚ)) / 60
        = s / 60 - ((60 * ⌊s / (3600 : ℚ)⌋ : ℤ) : ℚ) := by
      push_cast; ring
    rw [hrw, Int.floor_sub_int, hs60, h36]
    omega
  -- milliseconds
  have hmil : pyInt (pyMod s 1 * 1000) = ((⌊1000 * s⌋₊ % 1000 : ℕ) : ℤ) := by
    have hnn : 0 ≤ pyMod s 1 * 1000 := by
      have := pyMod_nonneg s 1 (by norm_num)
      positivity
    rw [pyInt_of_nonneg _ hnn]
    unfold pyMod
    have hrw : (s - 1 * ((⌊s / (1 : ℚ)⌋ : ℤ) : ℚ)) * 1000
        = 1000 * s - ((1000 * ⌊s / (1 : ℚ)⌋ : ℤ) : ℚ) := by
      push_cast; ring
    rw [hrw, Int.floor_sub_int]
    have h1 : ⌊s / (1 : ℚ)⌋ = ⌊s⌋ := by norm_num
    rw [h1, hfs, hn]
    omega
  rw [hh, hsec, hmin, hmil]

/-- Evaluation helper: the formatter at an input equal to `(m : ℚ) / 1000`. -/
theorem format_timestamp_at_millis (s : ℚ) (m : Nat) (h0 : 0 ≤ s)
    (h : 1000 * s = (m : ℚ)) : format_timestamp_srt s = specTruncTimestamp m := by
  rw [format_timestamp_eq_spec s h0, h, Nat.floor_natCast]

/-- Claim C3 (`functional_correctness`, `format_timestamp_srt`, lines
286-292): the formatter derives hours, minutes, seconds and milliseconds from
a non-negative input by truncation — its output is exactly
`specTruncTimestamp` of the truncated total milliseconds — and in particular
`formatTimestamp(0) = "00:00:00,000"`, `formatTimestamp(3725.123) =
"01:02:05,123"`, `formatTimestamp(36000) = "10:00:00,000"`, and
`formatTimestamp(0.001) = "00:00:00,001"`. -/
theorem C3_timestamp_truncation (s : ℚ) (h : 0 ≤ s) :
    format_timestamp_srt s = specTruncTimestamp ⌊1000 * s⌋₊ ∧
    format_timestamp_srt 0 = "00:00:00,000" ∧
    format_timestamp_srt (3725.123 : ℚ) = "01:02:05,123" ∧
    format_timestamp_srt 36000 = "10:00:00,000" ∧
    format_timestamp_srt (0.001 : ℚ) = "00:00:00,001" := by
  refine ⟨format_timestamp_eq_spec s h, ?_, ?_, ?_, ?_⟩
  · rw [format_timestamp_at_millis 0 0 (by norm_num) (by norm_num)]
    decide
  · rw [format_timestamp_at_millis (3725.123 : ℚ) 3725123 (by norm_num) (by norm_num)]
    decide
  · rw [format_timestamp_at_millis 36000 36000000 (by norm_num) (by norm_num)]
    decide
  · rw [format_timestamp_at_millis (0.001 : ℚ) 1 (by norm_num) (by norm_num)]
    decide

/-- Witness for C3 at the concrete input `s = 1/2`. -/
theorem C3_timestamp_truncation_witness :
    (0 : ℚ) ≤ 1 / 2 ∧
    (format_timestamp_srt (1 / 2 : ℚ) = specTruncTimestamp ⌊1000 * (1 / 2 : ℚ)⌋₊ ∧
      format_timestamp_srt 0 = "00:00:00,000" ∧
      format_timestamp_srt (3725.123 : ℚ) = "01:02:05,123" ∧
      format_timestamp_srt 36000 = "10:00:00,000" ∧
      format_timestamp_srt (0.001 : ℚ) = "00:00:00,001") :=
  ⟨by norm_num, C3_timestamp_truncation (1 / 2 : ℚ) (by norm_num)⟩

/-! ### Claim C5: SRT structure -/

theorem specSrtBlocks_length (i : Nat) (segs : List Segment) :
    (specSrtBlocks i segs).length = segs.length := by
  induction segs generalizing i with
  | nil => rfl
  | cons s rest ih => simp [specSrtBlocks, ih]

theorem srtItems_join (i : Nat) (segs : List Segment) (hne : segs ≠ []) :
    pyJoin "\n" (srtItems i segs) = pyJoin "\n\n" (specSrtBlocks i segs) ++ "\n" := by
  induction segs generalizing i with
  | nil => exact absurd rfl hne
  | cons s rest ih =>
      cases rest with
      | nil => rfl
      | cons s2 rest2 =>
          show (natStr i ++ "\n" ++ format_timestamp_srt s.start ++ " --> " ++
              format_timestamp_srt s.stop ++ "\n" ++ pyStrip s.text ++ "\n") ++ "\n" ++
              pyJoin "\n" (srtItems (i + 1) (s2 :: rest2)) = _
          rw [ih (i + 1) (by simp)]
          show _ = (natStr i ++ "\n" ++ format_timestamp_srt s.start ++ " --> " ++
              format_timestamp_srt s.stop ++ "\n" ++ pyStrip s.text) ++ "\n\n" ++
              pyJoin "\n\n" (specSrtBlocks (i + 1) (s2 :: rest2)) ++ "\n"
          apply String.ext
          simp [String.data_append]

/-- Claim C5 (`functional_correctness`, `format_output` srt branch, lines
264-271): SRT output is one block per segment, indexed sequentially from 1
(index line, then a `start --> end` timestamp line, then the trimmed text),
blocks separated by a blank line (the final block is followed by a single
newline), and zero segments yield the empty string. -/
theorem C5_srt_structure (r : TranscriptionResult) :
    (r.segments = [] → format_output r "srt" = "") ∧
    (r.segments ≠ [] →
      format_output r "srt" = pyJoin "\n\n" (specSrtBlocks 1 r.segments) ++ "\n") ∧
    (specSrtBlocks 1 r.segments).length = r.segments.length := by
  refine ⟨?_, ?_, specSrtBlocks_length 1 r.segments⟩
  · intro h
    simp [format_output, h, srtItems, pyJoin]
  · intro h
    show pyJoin "\n" (srtItems 1 r.segments) = _
    exact srtItems_join 1 r.segments h

/-- Witness for C5 at `sampleResult` (two segments). -/
theorem C5_srt_structure_witness :
    (sampleResult.segments = [] → format_output sampleResult "srt" = "") ∧
    (sampleResult.segments ≠ [] →
      format_output sampleResult "srt" =
        pyJoin "\n\n" (specSrtBlocks 1 sampleResult.segments) ++ "\n") ∧
    (specSrtBlocks 1 sampleResult.segments).length = sampleResult.segments.length :=
  C5_srt_structure sampleResult

/-! ### Claim C8: unrecognized formats fall back to TXT -/

/-- Claim C8 (`functional_correctness`, `format_output` fallback, lines
282-283): every format value other than `json`/`srt`/`vtt` takes the TXT
branch — the full text with leading and trailing whitespace stripped. -/
theorem C8_txt_fallback (r : TranscriptionResult) (fmt : String)
    (hj : fmt ≠ "json") (hs : fmt ≠ "srt") (hv : fmt ≠ "vtt") :
    format_output r fmt = pyStrip r.text := by
  simp [format_output, hj, hs, hv]

/-- Witness for C8 at format `"xml"`. -/
theorem C8_txt_fallback_witness :
    format_output sampleResult "xml" = pyStrip sampleResult.text :=
  C8_txt_fallback sampleResult "xml" (by decide) (by decide) (by decide)

/-! ### Claim C9: VTT with zero segments is the bare header -/

/-- Claim C9 (`functional_correctness`, `format_output` vtt branch, lines
273-280): with zero segments the VTT output is exactly `"WEBVTT\n"` — the
header line plus one newline — and in particular not the empty string that
the SRT branch produces in the same case. -/
theorem C9_vtt_empty (r : TranscriptionResult) (h : r.segments = []) :
    format_output r "vtt" = "WEBVTT\n" ∧ format_output r "vtt" ≠ "" := by
  have hv : format_output r "vtt" = "WEBVTT\n" := by
    simp [format_output, h, vttItems, pyJoin]
  exact ⟨hv, by rw [hv]; decide⟩

/-- Witness for C9 at a concrete zero-segment result. -/
theorem C9_vtt_empty_witness :
    format_output ⟨"Single line", [], none⟩ "vtt" = "WEBVTT\n" ∧
    format_output ⟨"Single line", [], none⟩ "vtt" ≠ "" :=
  C9_vtt_empty ⟨"Single line", [], none⟩ rfl

/-! ### Pipeline claims -/

theorem jobResult_shape (res : JobResult) :
    (∃ u d p l, res = JobResult.success u d p l) ∨ ∃ e, res = JobResult.failure e := by
  cases res with
  | success u d p l => exact Or.inl ⟨u, d, p, l, rfl⟩
  | failure e => exact Or.inr ⟨e, rfl⟩

/-- Claim C1 (`error_handling`, `transcribe`, lines 52-211): with the
pre-`try` environment reads satisfied (the S3 credential keys are present —
they are read while building the S3 client, before the `try` block), every
invocation of the pipeline terminates with a `JobResult` value, success or
structured failure, and never propagates an exception to the invoker. -/
theorem C1_no_exception_escapes (env : Env) (job : JobData) (ak sk : String)
    (ha : envGet env.environ "S3_ACCESS_KEY" = some ak)
    (hk : envGet env.environ "S3_SECRET_KEY" = some sk) :
    ∃ res w, runTranscribe env job = Except.ok (res, w) ∧
      ((∃ u d p l, res = JobResult.success u d p l) ∨ ∃ e, res = JobResult.failure e) := by
  unfold runTranscribe
  simp only [ha, hk]
  exact ⟨_, _, rfl, jobResult_shape _⟩

/-- Witness for C1 at a concrete environment and job. -/
theorem C1_no_exception_escapes_witness :
    envGet envOkW.environ "S3_ACCESS_KEY" = some "AK" ∧
    envGet envOkW.environ "S3_SECRET_KEY" = some "SK" ∧
    ∃ res w, runTranscribe envOkW jobW = Except.ok (res, w) ∧
      ((∃ u d p l, res = JobResult.success u d p l) ∨ ∃ e, res = JobResult.failure e) :=
  ⟨rfl, rfl, C1_no_exception_escapes envOkW jobW "AK" "SK" rfl rfl⟩

/-- Claim C4 (`error_handling`, lines 106-112 and 203-206): when the audio
download raises a `requests.RequestException` (network/transport failure, or
the non-2xx raise from `raise_for_status`), the pipeline returns
`{success: false}` with an error message that contains `"download"`,
performs no upload, and performs no callback call beyond the single `FAILED`
failure notification (none at all without a callback URL). -/
theorem C4_download_failure (env : Env) (job : JobData) (m ak sk : String)
    (ha : envGet env.environ "S3_ACCESS_KEY" = some ak)
    (hk : envGet env.environ "S3_SECRET_KEY" = some sk)
    (hd : env.download = Eff.reqExc m) :
    ∃ w, runTranscribe env job =
        Except.ok (JobResult.failure ("Failed to download audio: " ++ m), w) ∧
      (∃ pre post, ("Failed to download audio: " ++ m).data =
        pre ++ "download".data ++ post) ∧
      w.uploads = [] ∧
      w.posts = (match job.callbackUrl with
                 | some u =>
                     if u ≠ "" then [⟨u, job.transcriptionId, "FAILED", env.callbackErrOk⟩]
                     else []
                 | none => []) := by
  unfold runTranscribe
  simp only [ha, hk, hd]
  unfold handle_error
  refine ⟨_, rfl, ⟨"Failed to ".data, " audio: ".data ++ m.data, ?_⟩, ?_, ?_⟩
  · simp only [String.data_append, List.append_assoc]
    rfl
  · cases job.callbackUrl with
    | none => simp [optTruthy]
    | some u =>
        by_cases hu : u = "" <;> simp [optTruthy, hu]
  · cases job.callbackUrl with
    | none => simp [optTruthy]
    | some u =>
        by_cases hu : u = "" <;> simp [optTruthy, hu]

/-- Witness for C4 at a concrete failing download. -/
theorem C4_download_failure_witness :
    ∃ w, runTranscribe envDownFail jobW =
        Except.ok (JobResult.failure ("Failed to download audio: " ++ "connection refused"), w) ∧
      (∃ pre post, ("Failed to download audio: " ++ "connection refused").data =
        pre ++ "download".data ++ post) ∧
      w.uploads = [] ∧
      w.posts = (match jobW.callbackUrl with
                 | some u =>
                     if u ≠ "" then [⟨u, jobW.transcriptionId, "FAILED", envDownFail.callbackErrOk⟩]
                     else []
                 | none => []) :=
  C4_download_failure envDownFail jobW "connection refused" "AK" "SK" rfl rfl rfl

/-- Claim C2 (`invariants`, lines 103-115 and 214-227) is violated by the
code: on the handled download-failure path the temporary file created by
`tempfile.NamedTemporaryFile(delete=False)` still exists when the pipeline
returns.  `audio_path` is assigned only after `requests.get` and
`raise_for_status` succeed, so the `except` handler receives
`audio_path=None` and its existence-guarded cleanup never deletes the file.
This theorem evaluates the pipeline at such a failing input: the run returns
the structured download failure, yet the final world still contains the
temporary file. -/
theorem C2_tempfile_leak_on_download_failure :
    ∃ w, runTranscribe envDownFail jobW =
        Except.ok (JobResult.failure "Failed to download audio: connection refused", w) ∧
      w.files.contains envDownFail.tmpName = true := by
  refine ⟨⟨["/tmp/tmpa1.audio"], [],
    [⟨"https://cb.example/hook", "trans_1", "FAILED", true⟩]⟩, ?_, ?_⟩
  · rfl
  · rfl

theorem handle_error_fst (tid msg : String) (cb ap : Option String) (env : Env) (w : World) :
    (handle_error tid msg cb ap env w).1 = JobResult.failure msg := rfl

theorem handle_error_uploads (tid msg : String) (cb ap : Option String) (env : Env) (w : World) :
    (handle_error tid msg cb ap env w).2.uploads = w.uploads := by
  unfold handle_error
  cases cb <;> dsimp only <;> split_ifs <;> rfl

theorem finishSuccess_fst (tid : String) (cb : Option String) (rd : JobResult)
    (env : Env) (w : World) : (finishSuccess tid cb rd env w).1 = rd := rfl

theorem finishSuccess_uploads (tid : String) (cb : Option String) (rd : JobResult)
    (env : Env) (w : World) : (finishSuccess tid cb rd env w).2.uploads = w.uploads := by
  unfold finishSuccess
  cases cb <;> dsimp only
  all_goals split_ifs <;> rfl

/-- Claim C7 (`error_handling`, lines 186-201 and 229-247): a callback
delivery failure never alters the pipeline's returned `JobResult`.  First
conjunct: the returned result is independent of both callback-delivery
outcomes (the success-path POST and the `handle_error` POST), on every path.
Second conjunct: a job whose download, transcription, upload and cleanup all
succeed returns the full success record whatever the callback outcome. -/
theorem C7_callback_failure_never_alters_result (env : Env) (job : JobData) (b b' : Bool) :
    Except.map Prod.fst
        (runTranscribe { env with callbackMainOk := b, callbackErrOk := b' } job) =
      Except.map Prod.fst (runTranscribe env job) ∧
    (∀ res ak sk bucket,
      envGet env.environ "S3_ACCESS_KEY" = some ak →
      envGet env.environ "S3_SECRET_KEY" = some sk →
      envGet env.environ "S3_BUCKET" = some bucket →
      env.download = Eff.ok () → env.transcription = Eff.ok res →
      env.upload = Eff.ok () → env.unlinkMain = Eff.ok () →
      ∃ w, runTranscribe { env with callbackMainOk := b, callbackErrOk := b' } job =
        Except.ok (JobResult.success
          ("s3://" ++ bucket ++ "/" ++
            ("results/" ++ job.userId ++ "/" ++ job.transcriptionId ++ "." ++
              pyLower job.format))
          (durationOf res) env.processingTime (languageOf res), w)) := by
  constructor
  · unfold runTranscribe handle_error finishSuccess
    try dsimp only
    repeat' split
    all_goals rfl
  · intro res ak sk bucket hA hK hB hd ht hu hl
    unfold runTranscribe
    try dsimp only
    simp only [hA, hK, hB, hd, ht, hu, hl]
    split
    · exact ⟨_, rfl⟩
    · exact ⟨_, rfl⟩

/-- Witness for C7 at a concrete environment; the callback POSTs are set to
fail (`false` outcomes) and the job still returns its success record. -/
theorem C7_callback_failure_never_alters_result_witness :
    (Except.map Prod.fst
        (runTranscribe { envOkW with callbackMainOk := false, callbackErrOk := false } jobW) =
      Except.map Prod.fst (runTranscribe envOkW jobW)) ∧
    ∃ w, runTranscribe { envOkW with callbackMainOk := false, callbackErrOk := false } jobW =
      Except.ok (JobResult.success
        ("s3://" ++ "bkt" ++ "/" ++
          ("results/" ++ jobW.userId ++ "/" ++ jobW.transcriptionId ++ "." ++
            pyLower jobW.format))
        (durationOf sampleResult) envOkW.processingTime (languageOf sampleResult), w) := by
  have h := C7_callback_failure_never_alters_result envOkW jobW false false
  exact ⟨h.1, h.2 sampleResult "AK" "SK" "bkt" rfl rfl rfl rfl rfl rfl rfl⟩

/-- Claim C10 (`functional_correctness`, lines 83 and 148-161): for a job
whose lowercased format value is none of `json`/`srt`/`vtt`/`txt`, a
successful run still uploads, keyed
`results/{userId}/{transcriptionId}.{format}` with the unrecognized
lowercased format as extension, and the content type falls back to
`"text/plain"` (the `content_types.get` default). -/
theorem C10_unrecognized_format_upload (env : Env) (job : JobData)
    (res : TranscriptionResult) (ak sk bucket : String)
    (hA : envGet env.environ "S3_ACCESS_KEY" = some ak)
    (hK : envGet env.environ "S3_SECRET_KEY" = some sk)
    (hB : envGet env.environ "S3_BUCKET" = some bucket)
    (hd : env.download = Eff.ok ()) (ht : env.transcription = Eff.ok res)
    (hu : env.upload = Eff.ok ())
    (hf : pyLower job.format ≠ "json" ∧ pyLower job.format ≠ "srt" ∧
          pyLower job.format ≠ "vtt" ∧ pyLower job.format ≠ "txt") :
    ∃ r w, runTranscribe env job = Except.ok (r, w) ∧
      w.uploads =
        [⟨"results/" ++ job.userId ++ "/" ++ job.transcriptionId ++ "." ++ pyLower job.format,
          "text/plain", format_output res (pyLower job.format), job.transcriptionId,
          job.userId, pyLower job.model, durationOf res⟩] ∧
      contentTypesGet (pyLower job.format) = "text/plain" := by
  have hct : contentTypesGet (pyLower job.format) = "text/plain" := by
    simp [contentTypesGet, hf.1, hf.2.1, hf.2.2.1, hf.2.2.2]
  unfold runTranscribe
  simp only [hA, hK, hB, hd, ht, hu]
  refine ⟨_, _, rfl, ?_, hct⟩
  obtain ⟨u, hl2⟩ : ∃ u, env.unlinkMain = u := ⟨_, rfl⟩
  cases u <;> simp only [hl2] <;> split <;>
    simp [handle_error_uploads, finishSuccess_uploads, hct]

/-! ### Claim C6: JSON round-trip.  The serializer output is parsed back and
recovers the text, the segment count and the language.  The proof inverts the
serializer piece by piece: the escaped string bodies, the number lexemes, one
segment object, the segment array, and finally the whole result object. -/

theorem mk_data (s : String) : String.mk s.data = s := rfl

theorem skipWs_not (c : Char) (l : List Char) (h : isWsCh c = false) :
    skipWs (c :: l) = c :: l := by
  simp [skipWs, h]

theorem skipWs_cons_ws (c : Char) (l : List Char) (h : isWsCh c = true) :
    skipWs (c :: l) = skipWs l := by
  simp [skipWs, h]

theorem skipWs_indL (m : Nat) (l : List Char) : skipWs (indL m ++ l) = skipWs l := by
  induction m with
  | zero => rfl
  | succ n ih =>
      show skipWs (' ' :: (indL n ++ l)) = skipWs l
      rw [skipWs_cons_ws _ _ (by decide), ih]

theorem parseVal_cons_ws (c : Char) (f : Nat) (l : List Char) (h : isWsCh c = true) :
    parseVal f (c :: l) = parseVal f l := by
  cases f with
  | zero => rfl
  | succ g => rw [parseVal, parseVal, skipWs_cons_ws c l h]

theorem parseVal_indL (m : Nat) (f : Nat) (l : List Char) :
    parseVal f (indL m ++ l) = parseVal f l := by
  induction m with
  | zero => rfl
  | succ n ih =>
      show parseVal f (' ' :: (indL n ++ l)) = _
      rw [parseVal_cons_ws _ _ _ (by decide), ih]

theorem parseMembers_cons_ws (c : Char) (f : Nat) (l : List Char) (h : isWsCh c = true) :
    parseMembers f (c :: l) = parseMembers f l := by
  cases f with
  | zero => rfl
  | succ g => rw [parseMembers, parseMembers, skipWs_cons_ws c l h]

theorem parseMembers_indL (m : Nat) (f : Nat) (l : List Char) :
    parseMembers f (indL m ++ l) = parseMembers f l := by
  induction m with
  | zero => rfl
  | succ n ih =>
      show parseMembers f (' ' :: (indL n ++ l)) = _
      rw [parseMembers_cons_ws _ _ _ (by decide), ih]

theorem hexVal_hexDig (k : Nat) (h : k < 16) : hexVal (hexDig k) = some k := by
  interval_cases k <;> decide

/-- Unescaping inverts escaping, one character at a time. -/
theorem parseStrBody_escChar (c : Char) (l : List Char) :
    parseStrBody (escChar c ++ l) =
      (match parseStrBody l with
       | some (s, rest) => some (c :: s, rest)
       | none => none) := by
  unfold escChar
  split_ifs with h1 h2 h3 h4 h5 h6 h7 h8
  · subst h1; rw [parseStrBody.eq_def]; simp [unescCh]
  · subst h2; rw [parseStrBody.eq_def]; simp [unescCh]
  · subst h3; rw [parseStrBody.eq_def]; simp [unescCh]
  · subst h4; rw [parseStrBody.eq_def]; simp [unescCh]
  · subst h5; rw [parseStrBody.eq_def]; simp [unescCh]
  · subst h6; rw [parseStrBody.eq_def]; simp [unescCh]
  · subst h7; rw [parseStrBody.eq_def]; simp [unescCh]
  · have hv0 : hexVal '0' = some 0 := by decide
    have hv1 : hexVal (hexDig (c.toNat / 16)) = some (c.toNat / 16) :=
      hexVal_hexDig _ (by omega)
    have hv2 : hexVal (hexDig (c.toNat % 16)) = some (c.toNat % 16) :=
      hexVal_hexDig _ (by omega)
    have harith : ((0 * 16 + 0) * 16 + c.toNat / 16) * 16 + c.toNat % 16 = c.toNat := by
      omega
    simp only [List.cons_append, List.nil_append]
    rw [parseStrBody.eq_def]
    simp only [hv0, hv1, hv2]
    rw [show ((0 * 16 + 0) * 16 + c.toNat / 16) * 16 + c.toNat % 16 = c.toNat from by omega,
      Char.ofNat_toNat]
    simp
  · simp only [List.cons_append, List.nil_append]
    rw [parseStrBody.eq_def]
    simp [h1, h2]

/-- The string-body round-trip: parsing an escaped body recovers it exactly,
stopping at the closing quote. -/
theorem parseStrBody_escL (l : List Char) (rest : List Char) :
    parseStrBody (escL l ++ '"' :: rest) = some (l, rest) := by
  induction l with
  | nil =>
      simp only [escL, List.nil_append]
      rw [parseStrBody.eq_def]
      simp
  | cons c cs ih =>
      show parseStrBody (escChar c ++ escL cs ++ '"' :: rest) = _
      rw [List.append_assoc, parseStrBody_escChar, ih]
theorem C10_unrecognized_format_upload_witness :
    ∃ r w, runTranscribe envOkW jobXml = Except.ok (r, w) ∧
      w.uploads =
        [⟨"results/" ++ jobXml.userId ++ "/" ++ jobXml.transcriptionId ++ "." ++
            pyLower jobXml.format,
          "text/plain", format_output sampleResult (pyLower jobXml.format),
          jobXml.transcriptionId, jobXml.userId, pyLower jobXml.model,
          durationOf sampleResult⟩] ∧
      contentTypesGet (pyLower jobXml.format) = "text/plain" :=
  C10_unrecognized_format_upload envOkW jobXml sampleResult "AK" "SK" "bkt"
    rfl rfl rfl rfl rfl rfl (by refine ⟨?_, ?_, ?_, ?_⟩ <;> decide)

theorem digCh_digit (n : Nat) : isDigitCh (digCh n) = true := by
  unfold digCh
  have h10 : n % 10 = 0 ∨ n % 10 = 1 ∨ n % 10 = 2 ∨ n % 10 = 3 ∨ n % 10 = 4 ∨
      n % 10 = 5 ∨ n % 10 = 6 ∨ n % 10 = 7 ∨ n % 10 = 8 ∨ n % 10 = 9 := by omega
  rcases h10 with h | h | h | h | h | h | h | h | h | h <;> rw [h] <;> decide

theorem natDigs_digits (f n : Nat) : ∀ c ∈ natDigs f n, isDigitCh c = true := by
  induction f generalizing n with
  | zero => intro c hc; simp [natDigs] at hc
  | succ g ih =>
      intro c hc
      unfold natDigs at hc
      split at hc
      · simp at hc
        subst hc
        exact digCh_digit n
      · rw [List.mem_append] at hc
        cases hc with
        | inl h => exact ih _ c h
        | inr h =>
            simp at h
            subst h
            exact digCh_digit (n % 10)

theorem natDigs_ne_nil (f n : Nat) : natDigs (f + 1) n ≠ [] := by
  unfold natDigs
  split <;> simp

/-- A nonempty all-digit representation for `natStr`. -/
theorem natStr_shape (n : Nat) :
    ∃ c cs, (natStr n).data = c :: cs ∧ isDigitCh c = true ∧
      ∀ x ∈ (natStr n).data, isDigitCh x = true := by
  have hne := natDigs_ne_nil n n
  have hdig := natDigs_digits (n + 1) n
  cases hd : natDigs (n + 1) n with
  | nil => exact absurd hd hne
  | cons c cs =>
      refine ⟨c, cs, ?_, ?_, ?_⟩
      · show natDigs (n + 1) n = c :: cs
        exact hd
      · exact hdig c (by rw [hd]; exact List.mem_cons_self c cs)
      · intro x hx
        exact hdig x hx

theorem numCh_of_digit (c : Char) (h : isDigitCh c = true) : isNumCh c = true := by
  simp [isNumCh, h]

theorem numTok_append (a b : String) (ha : numTok a) (hb : numTok b) : numTok (a ++ b) := by
  intro c hc
  rw [String.data_append, List.mem_append] at hc
  cases hc with
  | inl h => exact ha c h
  | inr h => exact hb c h

theorem numTok_natStr (n : Nat) : numTok (natStr n) := by
  intro c hc
  exact numCh_of_digit c (natDigs_digits (n + 1) n c hc)

theorem numTok_padZ (k : Nat) (s : String) (hs : numTok s) : numTok (padZ k s) := by
  intro c hc
  unfold padZ at hc
  rw [String.data_append] at hc
  rw [List.mem_append] at hc
  cases hc with
  | inl h =>
      have := List.eq_of_mem_replicate h
      subst this
      decide
  | inr h => exact hs c h

/-- Shape of a token starting with the digits of `natStr`. -/
theorem natStr_concat_shape (n : Nat) (b : String) (hb : numTok b) :
    ∃ c cs, (natStr n ++ b).data = c :: cs ∧ (isDigitCh c || c = '-') = true ∧
      numTok (natStr n ++ b) := by
  obtain ⟨c, cs, hd, hdg, _⟩ := natStr_shape n
  exact ⟨c, cs ++ b.data, by simp [String.data_append, hd], by simp [hdg],
    numTok_append _ _ (numTok_natStr n) hb⟩

/-- The number lexeme of a rational is a nonempty token headed by a digit or
a minus sign, made of number characters only. -/
theorem ratLex_shape (q : ℚ) :
    ∃ c cs, (ratLex q).data = c :: cs ∧ (isDigitCh c || c = '-') = true ∧
      numTok (ratLex q) := by
  have hEmpty : ∀ t : String, "" ++ t = t := fun t => rfl
  have hminus : numTok "-" := by intro c hc; simp at hc; subst hc; decide
  have hdot : numTok "." := by intro c hc; simp at hc; subst hc; decide
  have hdot0 : numTok ".0" := by
    intro c hc
    simp at hc
    rcases hc with h | h <;> subst h <;> decide
  unfold ratLex
  by_cases hneg : q.num < 0 <;> simp only [hneg, ite_true, ite_false]
  · split_ifs with h1 h2
    · exact ⟨'-', _, rfl, by decide,
        numTok_append _ _ (numTok_append _ _ hminus (numTok_natStr _)) hdot0⟩
    · exact ⟨'-', _, rfl, by decide,
        numTok_append _ _ (numTok_append _ _ (numTok_append _ _ hminus (numTok_natStr _)) hdot)
          (numTok_padZ _ _ (numTok_natStr _))⟩
    · exact ⟨'-', _, rfl, by decide,
        numTok_append _ _ (numTok_append _ _ hminus (numTok_natStr _)) hdot0⟩
  · split_ifs with h1 h2
    · rw [hEmpty]
      exact natStr_concat_shape _ ".0" hdot0
    · rw [hEmpty, String.append_assoc]
      exact natStr_concat_shape _ _ (numTok_append _ _ hdot (numTok_padZ _ _ (numTok_natStr _)))
    · rw [hEmpty]
      exact natStr_concat_shape _ ".0" hdot0

theorem takeNum_stop (b : List Char) (hb : numHalt b = true) : takeNum b = ([], b) := by
  cases b with
  | nil => rfl
  | cons c cs =>
      have hc : isNumCh c = false := by
        simp [numHalt] at hb
        exact hb
      unfold takeNum
      rw [hc]
      rfl

theorem takeNum_run (a b : List Char) (ha : ∀ c ∈ a, isNumCh c = true)
    (hb : numHalt b = true) : takeNum (a ++ b) = (a, b) := by
  induction a with
  | nil => simpa using takeNum_stop b hb
  | cons c cs ih =>
      have hc : isNumCh c = true := ha c (List.mem_cons_self c cs)
      have hcs := ih (fun x hx => ha x (List.mem_cons_of_mem c hx))
      show takeNum (c :: (cs ++ b)) = _
      unfold takeNum
      rw [hc]
      simp [hcs]

/-- A character that begins a number token is no whitespace and triggers no
other parser branch. -/
theorem numHead_facts (c : Char) (h : (isDigitCh c || c = '-') = true) :
    isWsCh c = false ∧ c ≠ '"' ∧ c ≠ '[' ∧ c ≠ '\x7b' ∧ (c = '"') = False ∧
      (c = '[') = False ∧ (c = '\x7b') = False := by
  rw [Bool.or_eq_true] at h
  cases h with
  | inr hm =>
      have : c = '-' := by simpa using hm
      subst this
      refine ⟨by decide, by decide, by decide, by decide, by simp, by simp, by simp⟩
  | inl hd =>
      have hws : isWsCh c = false := by
        cases hws : isWsCh c
        · rfl
        · exfalso
          simp only [isWsCh, Bool.or_eq_true, decide_eq_true_eq] at hws
          rcases hws with ((h | h) | h) | h <;> subst h <;> exact absurd hd (by decide)
      have h1 : c ≠ '"' := fun e => by subst e; exact absurd hd (by decide)
      have h2 : c ≠ '[' := fun e => by subst e; exact absurd hd (by decide)
      have h3 : c ≠ '\x7b' := fun e => by subst e; exact absurd hd (by decide)
      exact ⟨hws, h1, h2, h3, by simp [h1], by simp [h2], by simp [h3]⟩

/-- The parser reads back exactly the number lexemes the serializer writes. -/
theorem parseVal_jnum (f : Nat) (lex : String) (rest : List Char)
    (hshape : ∃ c cs, lex.data = c :: cs ∧ (isDigitCh c || c = '-') = true ∧ numTok lex)
    (hrest : numHalt rest = true) :
    parseVal (f + 1) (lex.data ++ rest) = some (JVal.jnum lex, rest) := by
  obtain ⟨c, cs, hd, hh, hall⟩ := hshape
  obtain ⟨hws, _, _, _, hq, hbr, hbc⟩ := numHead_facts c hh
  have htake : takeNum (lex.data ++ rest) = (lex.data, rest) :=
    takeNum_run _ _ (fun x hx => hall x hx) hrest
  rw [parseVal, hd, List.cons_append, skipWs_not _ _ hws]
  simp only [hq, hbr, hbc, hh, if_false, if_true, ite_false, ite_true]
  rw [← List.cons_append, ← hd]
  show (let p := takeNum (lex.data ++ rest); some (JVal.jnum (String.mk p.1), p.2)) = _
  rw [htake]

/-- The parser reads back exactly the string literals the serializer writes. -/
theorem parseVal_jstr (f : Nat) (s : String) (rest : List Char) :
    parseVal (f + 1) (strLitL s ++ rest) = some (JVal.jstr s, rest) := by
  show parseVal (f + 1) (('"' :: (escL s.data ++ ['"'])) ++ rest) = _
  rw [List.cons_append, List.append_assoc, List.cons_append, List.nil_append]
  rw [parseVal, skipWs_not _ _ (by decide)]
  simp only [if_true, ite_true, if_pos rfl]
  rw [parseStrBody_escL]

/-- Parsing one serialized `"key": <number>,` member line, continuing with
the remaining member lines. -/
theorem parseMembers_num_step (f j : Nat) (k lex : String) (M R : List Char)
    (hkey : escL k.data = k.data)
    (hshape : ∃ c cs, lex.data = c :: cs ∧ (isDigitCh c || c = '-') = true ∧ numTok lex) :
    parseMembers (f + 2)
        (indL j ++ (strLitL k ++ ':' :: ' ' :: (lex.data ++ ',' :: '\n' :: M)) ++ R)
      = (match parseMembers (f + 1) (M ++ R) with
         | some (kvs, r5) => some ((k, JVal.jnum lex) :: kvs, r5)
         | none => none) := by
  rw [List.append_assoc, parseMembers_indL]
  simp only [strLitL, List.cons_append, List.append_assoc, List.nil_append]
  rw [show (f + 2) = (f + 1) + 1 from rfl, parseMembers, skipWs_not _ _ (by decide), hkey]
  have hps : parseStrBody (k.data ++ '"' :: ':' :: ' ' :: (lex.data ++ ',' :: '\n' :: (M ++ R)))
      = some (k.data, ':' :: ' ' :: (lex.data ++ ',' :: '\n' :: (M ++ R))) := by
    conv_lhs => rw [← hkey]
    exact parseStrBody_escL _ _
  try dsimp only
  rw [hps]
  try dsimp only
  rw [skipWs_not _ _ (by decide : isWsCh ':' = false)]
  try dsimp only
  rw [parseVal_cons_ws _ _ _ (by decide),
    parseVal_jnum f lex (',' :: '\n' :: (M ++ R)) hshape (by rfl)]
  try dsimp only
  rw [skipWs_not _ _ (by decide : isWsCh ',' = false)]
  try dsimp only
  rw [parseMembers_cons_ws _ _ _ (by decide)]
  simp

/-- Parsing the final serialized `"key": "<string>"` member line, through
the object's closing brace. -/
theorem parseMembers_str_last (f i j : Nat) (k t : String) (rest : List Char)
    (hkey : escL k.data = k.data) :
    parseMembers (f + 2)
        (indL j ++ (strLitL k ++ ':' :: ' ' :: strLitL t) ++
          '\n' :: (indL i ++ ('\x7d' :: rest)))
      = some ([(k, JVal.jstr t)], rest) := by
  rw [List.append_assoc, parseMembers_indL]
  simp only [strLitL, List.cons_append, List.append_assoc, List.nil_append]
  rw [show (f + 2) = (f + 1) + 1 from rfl, parseMembers, skipWs_not _ _ (by decide), hkey]
  have hps : parseStrBody
        (k.data ++ '"' :: ':' :: ' ' :: '"' ::
          (escL t.data ++ '"' :: '\n' :: (indL i ++ '\x7d' :: rest)))
      = some (k.data, ':' :: ' ' :: '"' ::
          (escL t.data ++ '"' :: '\n' :: (indL i ++ '\x7d' :: rest))) := by
    conv_lhs => rw [← hkey]
    exact parseStrBody_escL _ _
  try dsimp only
  rw [hps]
  try dsimp only
  rw [skipWs_not _ _ (by decide : isWsCh ':' = false)]
  try dsimp only
  rw [parseVal_cons_ws _ _ _ (by decide)]
  have hv := parseVal_jstr f t ('\n' :: (indL i ++ '\x7d' :: rest))
  simp only [strLitL, List.cons_append, List.append_assoc, List.nil_append] at hv
  rw [hv]
  try dsimp only
  rw [skipWs_cons_ws _ _ (by decide), skipWs_indL, skipWs_not _ _ (by decide)]
  simp

/-- Parsing the three serialized member lines of one segment object, through
the closing brace. -/
theorem parseMembers_seg (g j i : Nat) (s : Segment) (rest : List Char) :
    parseMembers (g + 4)
        (dumpMembersL j "start" (JVal.jnum (ratLex s.start))
            [("end", JVal.jnum (ratLex s.stop)), ("text", JVal.jstr s.text)] ++
          '\n' :: (indL i ++ ('\x7d' :: rest)))
      = some ([("start", JVal.jnum (ratLex s.start)), ("end", JVal.jnum (ratLex s.stop)),
          ("text", JVal.jstr s.text)], rest) := by
  simp only [dumpMembersL, dumpL]
  rw [show g + 4 = g + 2 + 2 from by omega,
    parseMembers_num_step (g + 2) j "start" (ratLex s.start) _ _ (by decide)
      (ratLex_shape s.start)]
  rw [show g + 2 + 1 = g + 1 + 2 from by omega,
    parseMembers_num_step (g + 1) j "end" (ratLex s.stop) _ _ (by decide)
      (ratLex_shape s.stop)]
  rw [show g + 1 + 1 = g + 2 from by omega,
    parseMembers_str_last g i j "text" s.text rest (by decide)]

/-- Parsing one serialized segment object. -/
theorem parseVal_seg (g ind : Nat) (s : Segment) (rest : List Char) :
    parseVal (g + 5) (dumpL ind (segToJson s) ++ rest) = some (segToJson s, rest) := by
  rw [show g + 5 = (g + 4) + 1 from by omega]
  simp only [segToJson, dumpL, List.cons_append, List.append_assoc, List.nil_append]
  rw [parseVal, skipWs_not _ _ (by decide)]
  try dsimp only
  rw [if_neg (by decide : ¬ ('\x7b' : Char) = '"'),
    if_neg (by decide : ¬ ('\x7b' : Char) = '['), if_pos (rfl : ('\x7b' : Char) = '\x7b')]
  obtain ⟨Z, hsk⟩ : ∃ Z,
      skipWs (dumpMembersL (ind + 2) "start" (JVal.jnum (ratLex s.start))
          [("end", JVal.jnum (ratLex s.stop)), ("text", JVal.jstr s.text)] ++
        '\n' :: (indL ind ++ ('\x7d' :: rest))) = '"' :: Z := by
    simp only [dumpMembersL, strLitL, List.cons_append, List.append_assoc]
    rw [skipWs_indL]
    exact ⟨_, skipWs_not _ _ (by decide)⟩
  rw [skipWs_cons_ws _ _ (by decide), hsk]
  try dsimp only
  rw [if_neg (by decide : ¬ ('"' : Char) = '\x7d')]
  rw [parseMembers_cons_ws _ _ _ (by decide), parseMembers_seg g (ind + 2) ind s rest]

theorem parseItems_cons_ws (c : Char) (f : Nat) (l : List Char) (h : isWsCh c = true) :
    parseItems f (c :: l) = parseItems f l := by
  cases f with
  | zero => rfl
  | succ g => rw [parseItems, parseItems, parseVal_cons_ws c g l h]

/-- Parsing the serialized element lines of a non-empty segment array,
through the closing bracket. -/
theorem parseItems_segs (ss : List Segment) :
    ∀ (s : Segment) (g j i : Nat) (rest : List Char),
    parseItems (g + ss.length + 6)
        (dumpItemsL j (segToJson s) (ss.map segToJson) ++ '\n' :: (indL i ++ (']' :: rest)))
      = some ((s :: ss).map segToJson, rest) := by
  induction ss with
  | nil =>
      intro s g j i rest
      simp only [List.map_nil, dumpItemsL, List.length_nil]
      rw [show g + 0 + 6 = (g + 5) + 1 from by omega, parseItems, List.append_assoc,
        parseVal_indL, parseVal_seg g j s ('\n' :: (indL i ++ (']' :: rest)))]
      try dsimp only
      rw [skipWs_cons_ws _ _ (by decide), skipWs_indL, skipWs_not _ _ (by decide)]
      try dsimp only
      rw [if_neg (by decide : ¬ (']' : Char) = ','), if_pos (rfl : (']' : Char) = ']')]
      simp
  | cons s2 ss2 ih =>
      intro s g j i rest
      simp only [List.map_cons, dumpItemsL, List.length_cons]
      rw [show g + (ss2.length + 1) + 6 = (g + ss2.length + 6) + 1 from by omega, parseItems,
        List.append_assoc, parseVal_indL, List.append_assoc]
      rw [show (',' :: '\n' :: dumpItemsL j (segToJson s2) (ss2.map segToJson)) ++
            '\n' :: (indL i ++ (']' :: rest))
          = ',' :: '\n' :: (dumpItemsL j (segToJson s2) (ss2.map segToJson) ++
            '\n' :: (indL i ++ (']' :: rest))) from by simp]
      rw [show g + ss2.length + 6 = (g + ss2.length + 1) + 5 from by omega,
        parseVal_seg (g + ss2.length + 1) j s]
      try dsimp only
      rw [skipWs_not _ _ (by decide : isWsCh ',' = false)]
      try dsimp only
      rw [if_pos (rfl : (',' : Char) = ',')]
      rw [show (g + ss2.length + 1) + 5 = (g + ss2.length + 6) from by omega]
      rw [parseItems_cons_ws _ _ _ (by decide), ih s2 g j i rest]
      simp

/-- Parsing one serialized member line with an arbitrary already-parsed
value, continuing with the remaining member lines. -/
theorem parseMembers_step_gen (f j : Nat) (k : String) (v : JVal) (V M R : List Char)
    (hkey : escL k.data = k.data)
    (hval : parseVal (f + 1) (V ++ ',' :: '\n' :: (M ++ R))
      = some (v, ',' :: '\n' :: (M ++ R))) :
    parseMembers (f + 2) (indL j ++ (strLitL k ++ ':' :: ' ' :: (V ++ ',' :: '\n' :: M)) ++ R)
      = (match parseMembers (f + 1) (M ++ R) with
         | some (kvs, r5) => some ((k, v) :: kvs, r5)
         | none => none) := by
  rw [List.append_assoc, parseMembers_indL]
  simp only [strLitL, List.cons_append, List.append_assoc, List.nil_append]
  rw [show (f + 2) = (f + 1) + 1 from rfl, parseMembers, skipWs_not _ _ (by decide), hkey]
  have hps : parseStrBody (k.data ++ '"' :: ':' :: ' ' :: (V ++ (',' :: '\n' :: (M ++ R))))
      = some (k.data, ':' :: ' ' :: (V ++ (',' :: '\n' :: (M ++ R)))) := by
    conv_lhs => rw [← hkey]
    exact parseStrBody_escL _ _
  try dsimp only
  rw [hps]
  try dsimp only
  rw [skipWs_not _ _ (by decide : isWsCh ':' = false)]
  try dsimp only
  rw [parseVal_cons_ws _ _ _ (by decide), hval]
  try dsimp only
  rw [skipWs_not _ _ (by decide : isWsCh ',' = false)]
  try dsimp only
  rw [parseMembers_cons_ws _ _ _ (by decide)]
  simp

/-- Parsing the final serialized member line with an arbitrary already-parsed
value, through the object's closing brace. -/
theorem parseMembers_last_gen (f i j : Nat) (k : String) (v : JVal) (V : List Char)
    (rest : List Char) (hkey : escL k.data = k.data)
    (hval : parseVal (f + 1) (V ++ '\n' :: (indL i ++ ('\x7d' :: rest)))
      = some (v, '\n' :: (indL i ++ ('\x7d' :: rest)))) :
    parseMembers (f + 2)
        (indL j ++ (strLitL k ++ ':' :: ' ' :: V) ++ '\n' :: (indL i ++ ('\x7d' :: rest)))
      = some ([(k, v)], rest) := by
  rw [List.append_assoc, parseMembers_indL]
  simp only [strLitL, List.cons_append, List.append_assoc, List.nil_append]
  rw [show (f + 2) = (f + 1) + 1 from rfl, parseMembers, skipWs_not _ _ (by decide), hkey]
  have hps : parseStrBody
        (k.data ++ '"' :: ':' :: ' ' :: (V ++ ('\n' :: (indL i ++ '\x7d' :: rest))))
      = some (k.data, ':' :: ' ' :: (V ++ ('\n' :: (indL i ++ '\x7d' :: rest)))) := by
    conv_lhs => rw [← hkey]
    exact parseStrBody_escL _ _
  try dsimp only
  rw [hps]
  try dsimp only
  rw [skipWs_not _ _ (by decide : isWsCh ':' = false)]
  try dsimp only
  rw [parseVal_cons_ws _ _ _ (by decide)]
  have hval2 : parseVal (f + 1) (V ++ ('\n' :: (indL i ++ '\x7d' :: rest)))
      = some (v, '\n' :: (indL i ++ '\x7d' :: rest)) := hval
  rw [hval2]
  try dsimp only
  rw [skipWs_cons_ws _ _ (by decide), skipWs_indL, skipWs_not _ _ (by decide)]
  simp

/-- Parsing a serialized segment array (empty or not). -/
theorem parseVal_segarr (g ind : Nat) (segs : List Segment) (rest : List Char) :
    parseVal (g + segs.length + 8) (dumpL ind (JVal.jarr (segs.map segToJson)) ++ rest)
      = some (JVal.jarr (segs.map segToJson), rest) := by
  cases segs with
  | nil =>
      simp only [List.map_nil, dumpL, List.length_nil]
      rw [show g + 0 + 8 = (g + 7) + 1 from by omega, parseVal]
      rw [show (['[', ']'] ++ rest : List Char) = '[' :: ']' :: rest from by simp]
      rw [skipWs_not _ _ (by decide)]
      try dsimp only
      rw [if_neg (by decide : ¬ ('[' : Char) = '"'), if_pos (rfl : ('[' : Char) = '[')]
      rw [skipWs_not _ _ (by decide : isWsCh ']' = false)]
      try dsimp only
      rw [if_pos (rfl : (']' : Char) = ']')]
  | cons x xs =>
      simp only [List.map_cons, dumpL, List.length_cons]
      rw [show g + (xs.length + 1) + 8 = (g + xs.length + 8) + 1 from by omega, parseVal]
      simp only [List.cons_append, List.append_assoc, List.nil_append]
      rw [skipWs_not _ _ (by decide)]
      try dsimp only
      rw [if_neg (by decide : ¬ ('[' : Char) = '"'), if_pos (rfl : ('[' : Char) = '[')]
      obtain ⟨Z, hsk⟩ : ∃ Z,
          skipWs (dumpItemsL (ind + 2) (segToJson x) (xs.map segToJson) ++
            '\n' :: (indL ind ++ (']' :: rest))) = '\x7b' :: Z := by
        cases hxs : xs.map segToJson with
        | nil =>
            simp only [dumpItemsL, segToJson, dumpL, List.cons_append, List.append_assoc]
            rw [skipWs_indL]
            exact ⟨_, skipWs_not _ _ (by decide)⟩
        | cons y ys =>
            simp only [dumpItemsL, segToJson, dumpL, List.cons_append, List.append_assoc]
            rw [skipWs_indL]
            exact ⟨_, skipWs_not _ _ (by decide)⟩
      rw [skipWs_cons_ws _ _ (by decide), hsk]
      try dsimp only
      rw [if_neg (by decide : ¬ ('\x7b' : Char) = ']')]
      rw [parseItems_cons_ws _ _ _ (by decide)]
      rw [show g + xs.length + 8 = (g + 2) + xs.length + 6 from by omega,
        parseItems_segs xs x (g + 2) (ind + 2) ind rest]
      simp

theorem dumpL_jstr (j : Nat) (t : String) : dumpL j (JVal.jstr t) = strLitL t := by
  simp [dumpL]

/-- Parsing the whole serialized result object. -/
theorem parseVal_result (g : Nat) (r : TranscriptionResult) (rest : List Char) :
    parseVal (g + r.segments.length + 12) (dumpL 0 (resultToJson r) ++ rest)
      = some (resultToJson r, rest) := by
  rcases hlang : r.language with _ | lang
  · -- no language key: two members
    simp only [resultToJson, hlang, List.cons_append, List.nil_append, List.append_nil]
    simp only [dumpL, List.cons_append, List.append_assoc, List.nil_append]
    rw [show g + r.segments.length + 12 = (g + r.segments.length + 11) + 1 from by omega,
      parseVal, skipWs_not _ _ (by decide)]
    try dsimp only
    rw [if_neg (by decide : ¬ ('\x7b' : Char) = '"'),
      if_neg (by decide : ¬ ('\x7b' : Char) = '['), if_pos (rfl : ('\x7b' : Char) = '\x7b')]
    obtain ⟨Z, hsk⟩ : ∃ Z,
        skipWs (dumpMembersL 2 "text" (JVal.jstr r.text)
            [("segments", JVal.jarr (r.segments.map segToJson))] ++
          '\n' :: (indL 0 ++ ('\x7d' :: rest))) = '"' :: Z := by
      simp only [dumpMembersL, strLitL, List.cons_append, List.append_assoc]
      rw [skipWs_indL]
      exact ⟨_, skipWs_not _ _ (by decide)⟩
    rw [skipWs_cons_ws _ _ (by decide), hsk]
    try dsimp only
    rw [if_neg (by decide : ¬ ('"' : Char) = '\x7d')]
    rw [parseMembers_cons_ws _ _ _ (by decide)]
    simp only [dumpMembersL, dumpL_jstr]
    rw [show g + r.segments.length + 11 = (g + r.segments.length + 9) + 2 from by omega,
      parseMembers_step_gen (g + r.segments.length + 9) 2 "text" (JVal.jstr r.text)
        (strLitL r.text) _ _ (by decide)
        (parseVal_jstr (g + r.segments.length + 9) r.text _)]
    rw [show g + r.segments.length + 9 + 1 = (g + r.segments.length + 8) + 2 from by omega]
    rw [parseMembers_last_gen (g + r.segments.length + 8) 0 2 "segments"
      (JVal.jarr (r.segments.map segToJson)) (dumpL 2 (JVal.jarr (r.segments.map segToJson)))
      rest (by decide) ?hval]
    case hval =>
      rw [show g + r.segments.length + 8 + 1 = (g + 1) + r.segments.length + 8 from by omega]
      exact parseVal_segarr (g + 1) 2 r.segments ('\n' :: (indL 0 ++ '\x7d' :: rest))
  · -- with a language key: three members
    simp only [resultToJson, hlang, List.cons_append, List.nil_append, List.append_nil]
    simp only [dumpL, List.cons_append, List.append_assoc, List.nil_append]
    rw [show g + r.segments.length + 12 = (g + r.segments.length + 11) + 1 from by omega,
      parseVal, skipWs_not _ _ (by decide)]
    try dsimp only
    rw [if_neg (by decide : ¬ ('\x7b' : Char) = '"'),
      if_neg (by decide : ¬ ('\x7b' : Char) = '['), if_pos (rfl : ('\x7b' : Char) = '\x7b')]
    obtain ⟨Z, hsk⟩ : ∃ Z,
        skipWs (dumpMembersL 2 "text" (JVal.jstr r.text)
            [("segments", JVal.jarr (r.segments.map segToJson)),
             ("language", JVal.jstr lang)] ++
          '\n' :: (indL 0 ++ ('\x7d' :: rest))) = '"' :: Z := by
      simp only [dumpMembersL, strLitL, List.cons_append, List.append_assoc]
      rw [skipWs_indL]
      exact ⟨_, skipWs_not _ _ (by decide)⟩
    rw [skipWs_cons_ws _ _ (by decide), hsk]
    try dsimp only
    rw [if_neg (by decide : ¬ ('"' : Char) = '\x7d')]
    rw [parseMembers_cons_ws _ _ _ (by decide)]
    simp only [dumpMembersL, dumpL_jstr]
    rw [show g + r.segments.length + 11 = (g + r.segments.length + 9) + 2 from by omega,
      parseMembers_step_gen (g + r.segments.length + 9) 2 "text" (JVal.jstr r.text)
        (strLitL r.text) _ _ (by decide)
        (parseVal_jstr (g + r.segments.length + 9) r.text _)]
    rw [show g + r.segments.length + 9 + 1 = (g + r.segments.length + 8) + 2 from by omega]
    rw [parseMembers_step_gen (g + r.segments.length + 8) 2 "segments"
      (JVal.jarr (r.segments.map segToJson)) (dumpL 2 (JVal.jarr (r.segments.map segToJson)))
      _ _ (by decide) ?hval2]
    case hval2 =>
      rw [show g + r.segments.length + 8 + 1 = (g + 1) + r.segments.length + 8 from by omega]
      exact parseVal_segarr (g + 1) 2 r.segments _
    rw [show g + r.segments.length + 8 + 1 = (g + r.segments.length + 7) + 2 from by omega]
    rw [parseMembers_last_gen (g + r.segments.length + 7) 0 2 "language"
      (JVal.jstr lang) (strLitL lang) rest (by decide)
      (parseVal_jstr (g + r.segments.length + 7) lang _)]

theorem seg_dump_len_pos (j : Nat) (s : Segment) : 1 ≤ (dumpL j (segToJson s)).length := by
  simp only [segToJson, dumpL, List.length_cons]
  omega

theorem items_dump_len (j : Nat) (s : Segment) (ss : List Segment) :
    ss.length + 1 ≤ (dumpItemsL j (segToJson s) (ss.map segToJson)).length := by
  induction ss generalizing s with
  | nil =>
      simp only [List.map_nil, dumpItemsL, List.length_append, List.length_nil]
      have := seg_dump_len_pos j s
      omega
  | cons s2 ss2 ih =>
      simp only [List.map_cons, dumpItemsL, List.length_append, List.length_cons,
        List.length_nil]
      have := ih s2
      omega

theorem result_dump_len (r : TranscriptionResult) :
    r.segments.length + 11 ≤ (dumpL 0 (resultToJson r)).length := by
  have harr : ∀ (xs : List Segment),
      xs.length + 2 ≤ (dumpL 2 (JVal.jarr (xs.map segToJson))).length := by
    intro xs
    cases xs with
    | nil => simp [dumpL]
    | cons s ss =>
        simp only [List.map_cons, dumpL, List.length_cons, List.length_append,
          List.length_nil, indL, List.length_replicate]
        have := items_dump_len (2 + 2) s ss
        omega
  have h2 := harr r.segments
  rcases hlang : r.language with _ | lang <;>
  · simp only [resultToJson, hlang, List.cons_append, List.nil_append, List.append_nil,
      dumpL, dumpMembersL, strLitL, indL, List.length_cons, List.length_append,
      List.length_nil, List.length_replicate, Nat.zero_add]
    omega

/-- The JSON branch of the formatter parses back to exactly the serialized
value. -/
theorem parseJson_format (r : TranscriptionResult) :
    parseJson (format_output r "json") = some (resultToJson r) := by
  have hlen := result_dump_len r
  have hdata : (format_output r "json").data = dumpL 0 (resultToJson r) := by
    simp [format_output, json_dumps]
  obtain ⟨g, hg⟩ : ∃ g,
      (dumpL 0 (resultToJson r)).length + 1 = g + r.segments.length + 12 :=
    ⟨(dumpL 0 (resultToJson r)).length + 1 - (r.segments.length + 12), by omega⟩
  have hpv := parseVal_result g r []
  rw [List.append_nil] at hpv
  rw [parseJson, hdata, hg, hpv]
  simp [skipWs]

theorem mem_escL (c : Char) (cs : List Char) (hc : c ∈ cs) (h1 : 32 ≤ c.toNat)
    (h2 : c ≠ '"') (h3 : c ≠ '\\') : c ∈ escL cs := by
  induction cs with
  | nil => cases hc
  | cons d ds ih =>
      simp only [escL, List.mem_append]
      rcases List.mem_cons.mp hc with h | h
      · left
        subst h
        rw [escChar, if_neg h2, if_neg h3,
          if_neg (fun e => absurd h1 (by rw [e]; decide)),
          if_neg (fun e => absurd h1 (by rw [e]; decide)),
          if_neg (fun e => absurd h1 (by rw [e]; decide)),
          if_neg (fun e => absurd h1 (by rw [e]; decide)),
          if_neg (fun e => absurd h1 (by rw [e]; decide)),
          if_neg (by omega)]
        exact List.mem_singleton.mpr rfl
      · exact Or.inr (ih h)

theorem mem_dump_text (r : TranscriptionResult) (c : Char)
    (hc : c ∈ escL r.text.data) : c ∈ dumpL 0 (resultToJson r) := by
  simp only [resultToJson, List.cons_append, List.nil_append, dumpL, dumpMembersL, strLitL]
  simp only [List.mem_cons, List.mem_append, List.mem_singleton]
  tauto

/-- C6: JSON formatting round-trips.  Parsing the formatter's JSON output
recovers exactly the serialized result object; its members give back the full
text under `"text"`, the same number of segments under `"segments"`, and the
detected language under `"language"` (absent when none); and every character
of the text that the serializer leaves unescaped — all printable characters
other than `"` and `\\`, hence every non-ASCII character — appears verbatim
in the output. -/
theorem C6_json_roundtrip (r : TranscriptionResult) :
    parseJson (format_output r "json") = some (resultToJson r) ∧
    (∃ kvs, resultToJson r = JVal.jobj kvs ∧
      jLookup kvs "text" = some (JVal.jstr r.text) ∧
      (∃ items, jLookup kvs "segments" = some (JVal.jarr items) ∧
        items.length = r.segments.length) ∧
      jLookup kvs "language" = r.language.map JVal.jstr) ∧
    (∀ c ∈ r.text.data, 32 ≤ c.toNat → c ≠ '"' → c ≠ '\\' →
      c ∈ (format_output r "json").data) := by
  refine ⟨parseJson_format r,
    ⟨_, rfl, ?_, ⟨r.segments.map segToJson, ?_, by simp⟩, ?_⟩, ?_⟩
  · rcases hlang : r.language with _ | lang <;> simp [hlang, jLookup]
  · rcases hlang : r.language with _ | lang <;> simp [hlang, jLookup]
  · rcases hlang : r.language with _ | lang <;> simp [hlang, jLookup]
  · intro c hcmem h1 h2 h3
    have hm := mem_dump_text r c (mem_escL c r.text.data hcmem h1 h2 h3)
    have hdata : (format_output r "json").data = dumpL 0 (resultToJson r) := by
      simp [format_output, json_dumps]
    rw [hdata]
    exact hm

theorem C6_json_roundtrip_witness :
    parseJson (format_output c6Sample "json") = some (resultToJson c6Sample) :=
  (C6_json_roundtrip c6Sample).1

end ModalWorker